import Mathlib

/-!
Shallow embedding of `gemma-cli` (Go): the JSON-Schema → genai.Schema
translator (`convertJSONSchemaToGenaiSchema` in `main.go`), the response
pipeline (`run` in `main.go`), and the environment-variable helpers
(`env/env.go`), together with theorems settling the specification claims.

Go dynamic values (`any` / `interface`) are modelled by the inductive
`GoVal`.  Go distinguishes `[]any` from `[]string` at runtime (a type
assertion `.([]any)` fails on a `[]string`), so the embedding keeps the
two as separate constructors.  `map[string]any` is modelled as an
association list with unique keys; iteration order of a Go map is
unspecified, the list order stands in for one such order.
-/

set_option autoImplicit false
set_option linter.unusedVariables false

/-- Model of a Go `any` value as it appears in a decoded JSON document or
in the hand-written `DefaultSchema` literal of `main.go`. -/
inductive GoVal : Type where
  | vnull : GoVal
  | vbool (b : Bool) : GoVal
  | vnum (x : Int) : GoVal
  | vstr (s : String) : GoVal
  | vlist (xs : List GoVal) : GoVal
  | vstrList (xs : List String) : GoVal
  | vmap (fields : List (String × GoVal)) : GoVal

/-- The `genai.Type` enum; `unspecified` is the Go zero value
`genai.TypeUnspecified` that a fresh `genai.Schema{}` starts with. -/
inductive GenaiType : Type where
  | unspecified : GenaiType
  | object : GenaiType
  | array : GenaiType
  | string : GenaiType
  | number : GenaiType
  | integer : GenaiType
  | boolean : GenaiType
deriving DecidableEq, Repr

/-- The `genai.Schema` struct.  `properties` is `none` when the Go field
is a nil map (never assigned) and `some ps` when `make` ran, mirroring
lines 212-223 of `main.go`; likewise `items` is `none` for a nil pointer. -/
inductive GenaiSchema : Type where
  | mk (type : GenaiType) (description : String)
      (properties : Option (List (String × GenaiSchema)))
      (items : Option GenaiSchema)
      (required : List String)
      (enum : List String)
      (format : String) : GenaiSchema

def GenaiSchema.type : GenaiSchema → GenaiType
  | .mk t _ _ _ _ _ _ => t

def GenaiSchema.description : GenaiSchema → String
  | .mk _ d _ _ _ _ _ => d

def GenaiSchema.properties : GenaiSchema → Option (List (String × GenaiSchema))
  | .mk _ _ p _ _ _ _ => p

def GenaiSchema.items : GenaiSchema → Option GenaiSchema
  | .mk _ _ _ i _ _ _ => i

def GenaiSchema.required : GenaiSchema → List String
  | .mk _ _ _ _ r _ _ => r

def GenaiSchema.enum : GenaiSchema → List String
  | .mk _ _ _ _ _ e _ => e

def GenaiSchema.format : GenaiSchema → String
  | .mk _ _ _ _ _ _ f => f

/-- Go map indexing `jsonSchema[key]`: the assoc-list lookup. -/
def lookupKey : List (String × GoVal) → String → Option GoVal
  | [], _ => none
  | (k, v) :: rest, key => if k = key then some v else lookupKey rest key

theorem sizeOf_lookupKey {m : List (String × GoVal)} {key : String} {v : GoVal}
    (h : lookupKey m key = some v) : sizeOf v < sizeOf m := by
  induction m with
  | nil => simp [lookupKey] at h
  | cons p rest ih =>
    obtain ⟨k, w⟩ := p
    by_cases hk : k = key
    · rw [lookupKey, if_pos hk] at h
      cases h
      simp only [List.cons.sizeOf_spec, Prod.mk.sizeOf_spec]
      omega
    · rw [lookupKey, if_neg hk] at h
      have := ih h
      simp only [List.cons.sizeOf_spec, Prod.mk.sizeOf_spec]
      omega

/-- Lines 186-204 of `main.go`: the `type` field selects the node kind.
The `if ... ok` guard means an absent or non-string `type` leaves the
zero value `unspecified`; only a present string that is not one of the
six supported names is an error. -/
def convertTypeField (jsonSchema : List (String × GoVal)) : Except String GenaiType :=
  match lookupKey jsonSchema "type" with
  | some (GoVal.vstr typeStr) =>
    if typeStr = "object" then Except.ok GenaiType.object
    else if typeStr = "array" then Except.ok GenaiType.array
    else if typeStr = "string" then Except.ok GenaiType.string
    else if typeStr = "number" then Except.ok GenaiType.number
    else if typeStr = "integer" then Except.ok GenaiType.integer
    else if typeStr = "boolean" then Except.ok GenaiType.boolean
    else Except.error ("unsupported type: " ++ typeStr)
  | _ => Except.ok GenaiType.unspecified

/-- Lines 206-209 of `main.go`: `description` copied when string-typed. -/
def getDescriptionField (jsonSchema : List (String × GoVal)) : String :=
  match lookupKey jsonSchema "description" with
  | some (GoVal.vstr desc) => desc
  | _ => ""

/-- Lines 234-242 of `main.go`: `required` must assert to `[]any`
(so a Go `[]string` value fails the assertion and the field stays nil);
`make([]string, len(required))` then keeps the slice length and only
string entries are written, so a non-string entry leaves the zero value
`""` at its index. -/
def getRequiredField (jsonSchema : List (String × GoVal)) : List String :=
  match lookupKey jsonSchema "required" with
  | some (GoVal.vlist required) =>
    required.map (fun req =>
      match req with
      | GoVal.vstr reqStr => reqStr
      | _ => "")
  | _ => []

/-- Lines 244-252 of `main.go`: `enum`, same shape as `required`. -/
def getEnumField (jsonSchema : List (String × GoVal)) : List String :=
  match lookupKey jsonSchema "enum" with
  | some (GoVal.vlist enum) =>
    enum.map (fun e =>
      match e with
      | GoVal.vstr eStr => eStr
      | _ => "")
  | _ => []

/-- Lines 254-257 of `main.go`: `format` copied when string-typed. -/
def getFormatField (jsonSchema : List (String × GoVal)) : String :=
  match lookupKey jsonSchema "format" with
  | some (GoVal.vstr format) => format
  | _ => ""

mutual

/-- Lines 183-260 of `main.go`: `convertJSONSchemaToGenaiSchema`.
Field handling happens in source order (`type`, `description`,
`properties`, `items`, `required`, `enum`, `format`); the first error
aborts the whole call, so no partial tree escapes.  The `properties` and
`items` steps are split into the named stage functions below purely so
that theorems can speak about them; the composition is the source body. -/
def convertJSONSchemaToGenaiSchema (jsonSchema : List (String × GoVal)) :
    Except String GenaiSchema := do
  let t ← convertTypeField jsonSchema
  let ps ← convertPropertiesField jsonSchema
  let its ← convertItemsField jsonSchema
  Except.ok (GenaiSchema.mk t (getDescriptionField jsonSchema) ps its
    (getRequiredField jsonSchema) (getEnumField jsonSchema)
    (getFormatField jsonSchema))
termination_by (sizeOf jsonSchema, 1)
decreasing_by
  all_goals
    apply Prod.Lex.right
    omega

/-- Lines 211-223 of `main.go`: the `properties` step.  The type
assertion `.(map[string]any)` must succeed for the loop to run at all;
the node kind is not consulted. -/
def convertPropertiesField (jsonSchema : List (String × GoVal)) :
    Except String (Option (List (String × GenaiSchema))) :=
  match hp : lookupKey jsonSchema "properties" with
  | some (GoVal.vmap props) =>
    match convertProperties props with
    | Except.error e => Except.error e
    | Except.ok converted => Except.ok (some converted)
  | _ => Except.ok none
termination_by (sizeOf jsonSchema, 0)
decreasing_by
  apply Prod.Lex.left
  have h1 := sizeOf_lookupKey hp
  simp only [GoVal.vmap.sizeOf_spec] at h1
  omega

/-- Lines 225-232 of `main.go`: the `items` step, again guarded only by
the type assertion, not by the node kind. -/
def convertItemsField (jsonSchema : List (String × GoVal)) :
    Except String (Option GenaiSchema) :=
  match hi : lookupKey jsonSchema "items" with
  | some (GoVal.vmap items) =>
    match convertJSONSchemaToGenaiSchema items with
    | Except.error e => Except.error ("failed to convert items schema: " ++ e)
    | Except.ok itemSchema => Except.ok (some itemSchema)
  | _ => Except.ok none
termination_by (sizeOf jsonSchema, 0)
decreasing_by
  apply Prod.Lex.left
  have h1 := sizeOf_lookupKey hi
  simp only [GoVal.vmap.sizeOf_spec] at h1
  omega

/-- Lines 214-222 of `main.go`: the loop over `props`.  A value that is
not a `map[string]any` is skipped; a failing recursive conversion aborts
with the error wrapped with the offending key. -/
def convertProperties : List (String × GoVal) → Except String (List (String × GenaiSchema))
  | [] => Except.ok []
  | (key, prop) :: rest =>
    match prop with
    | GoVal.vmap propMap =>
      match convertJSONSchemaToGenaiSchema propMap with
      | Except.error e => Except.error ("failed to convert property " ++ key ++ ": " ++ e)
      | Except.ok propSchema =>
        match convertProperties rest with
        | Except.error e => Except.error e
        | Except.ok converted => Except.ok ((key, propSchema) :: converted)
    | _ => convertProperties rest
termination_by l => (sizeOf l, 2)
decreasing_by
  · apply Prod.Lex.left
    simp only [List.cons.sizeOf_spec, Prod.mk.sizeOf_spec, GoVal.vmap.sizeOf_spec]
    omega
  · apply Prod.Lex.left
    simp only [List.cons.sizeOf_spec]
    omega
  · apply Prod.Lex.left
    simp only [List.cons.sizeOf_spec]
    omega

end

/-- Unfolding lemma: a successful conversion is exactly the composition
of the stage functions, and every field of the result is determined by
its stage. -/
theorem convert_ok_shape {m : List (String × GoVal)} {s : GenaiSchema}
    (h : convertJSONSchemaToGenaiSchema m = Except.ok s) :
    ∃ t ps its, convertTypeField m = Except.ok t ∧
      convertPropertiesField m = Except.ok ps ∧
      convertItemsField m = Except.ok its ∧
      s = GenaiSchema.mk t (getDescriptionField m) ps its
        (getRequiredField m) (getEnumField m) (getFormatField m) := by
  rw [convertJSONSchemaToGenaiSchema] at h
  cases ht : convertTypeField m with
  | error e => rw [ht] at h; exact absurd h (by simp [Bind.bind, Except.bind])
  | ok t =>
    rw [ht] at h
    cases hps : convertPropertiesField m with
    | error e => rw [hps] at h; exact absurd h (by simp [Bind.bind, Except.bind])
    | ok ps =>
      rw [hps] at h
      cases hits : convertItemsField m with
      | error e => rw [hits] at h; exact absurd h (by simp [Bind.bind, Except.bind])
      | ok its =>
        rw [hits] at h
        simp only [Bind.bind, Except.bind, Except.ok.injEq] at h
        exact ⟨t, ps, its, rfl, rfl, rfl, h.symm⟩

/-- A failing `type` field aborts the whole conversion with its error. -/
theorem convert_error_of_type {m : List (String × GoVal)} {e : String}
    (h : convertTypeField m = Except.error e) :
    convertJSONSchemaToGenaiSchema m = Except.error e := by
  rw [convertJSONSchemaToGenaiSchema, h]; rfl

/-- A failing `properties` step (after a successful `type` step) aborts
the whole conversion with its error. -/
theorem convert_error_of_props {m : List (String × GoVal)} {t : GenaiType} {e : String}
    (ht : convertTypeField m = Except.ok t)
    (hp : convertPropertiesField m = Except.error e) :
    convertJSONSchemaToGenaiSchema m = Except.error e := by
  rw [convertJSONSchemaToGenaiSchema, ht, hp]; rfl

/-- The six `type` strings accepted by the `switch` in `main.go`. -/
def supportedTypeNames : List String :=
  ["object", "array", "string", "number", "integer", "boolean"]

/-!
## The `env` package (`env/env.go`)

The process environment is a partial map from names to values
(`os.LookupEnv`); the package-global `FatalOnMissingEnv` becomes an
explicit boolean argument.  A Go `panic` or `os.Exit` is modelled by the
corresponding `EnvOutcome` constructor instead of a returned value.
-/

/-- Outcome of an `env` package lookup: a normal value, a `panic`, or a
process exit via `os.Exit`. -/
inductive EnvOutcome (α : Type) : Type where
  | panicked (msg : String) : EnvOutcome α
  | exited (code : Nat) : EnvOutcome α
  | value (v : α) : EnvOutcome α
deriving DecidableEq, Repr

/-- The process environment, as seen by `os.LookupEnv`. -/
def EnvMap : Type := String → Option String

/-- The panic message used by every `*Else` helper in `env/env.go`. -/
def fatalElseMessage : String :=
  "env.FatalOnMissingEnv is incompatible with using *Else() functions"

/-- `env.GetAsString` (lines 20-27 of `env/env.go`): a missing variable
with `FatalOnMissingEnv` set exits the process; otherwise `LookupEnv`'s
zero value `""` is returned. -/
def GetAsString (fatalOnMissingEnv : Bool) (envm : EnvMap) (key : String) :
    EnvOutcome String :=
  match envm key with
  | some v => EnvOutcome.value v
  | none =>
    if fatalOnMissingEnv then EnvOutcome.exited 1 else EnvOutcome.value ""

/-- `env.GetAsStringElse` (lines 30-39): panics up front whenever
`FatalOnMissingEnv` is set, before even looking at the environment. -/
def GetAsStringElse (fatalOnMissingEnv : Bool) (envm : EnvMap)
    (key alt : String) : EnvOutcome String :=
  if fatalOnMissingEnv then EnvOutcome.panicked fatalElseMessage
  else
    match envm key with
    | none => EnvOutcome.value alt
    | some v => EnvOutcome.value v

/-- `strconv.Atoi`, as far as this program exercises it. -/
def atoi (s : String) : Option Int :=
  s.toInt?

/-- `strconv.ParseBool`: the exact set of accepted literals. -/
def parseBool (s : String) : Option Bool :=
  if s = "1" ∨ s = "t" ∨ s = "T" ∨ s = "true" ∨ s = "TRUE" ∨ s = "True" then
    some true
  else if s = "0" ∨ s = "f" ∨ s = "F" ∨ s = "false" ∨ s = "FALSE" ∨ s = "False" then
    some false
  else none

/-- `env.GetAsIntElse` (lines 53-63): panic check first, then a
`GetAsString` lookup and an `Atoi` with the alternative on failure. -/
def GetAsIntElse (fatalOnMissingEnv : Bool) (envm : EnvMap)
    (key : String) (alt : Int) : EnvOutcome Int :=
  if fatalOnMissingEnv then EnvOutcome.panicked fatalElseMessage
  else
    match GetAsString fatalOnMissingEnv envm key with
    | EnvOutcome.panicked m => EnvOutcome.panicked m
    | EnvOutcome.exited c => EnvOutcome.exited c
    | EnvOutcome.value valueStr =>
      match atoi valueStr with
      | some value => EnvOutcome.value value
      | none => EnvOutcome.value alt

/-- `env.GetAsBoolElse` (lines 77-87): same shape as `GetAsIntElse`. -/
def GetAsBoolElse (fatalOnMissingEnv : Bool) (envm : EnvMap)
    (key : String) (alt : Bool) : EnvOutcome Bool :=
  if fatalOnMissingEnv then EnvOutcome.panicked fatalElseMessage
  else
    match GetAsString fatalOnMissingEnv envm key with
    | EnvOutcome.panicked m => EnvOutcome.panicked m
    | EnvOutcome.exited c => EnvOutcome.exited c
    | EnvOutcome.value valueStr =>
      match parseBool valueStr with
      | some value => EnvOutcome.value value
      | none => EnvOutcome.value alt

/-- `env.GetAsSliceElse` (lines 96-105): panic check first, then the
empty-string check selects the alternative, else `strings.Split`. -/
def GetAsSliceElse (fatalOnMissingEnv : Bool) (envm : EnvMap)
    (name sep : String) (alt : List String) : EnvOutcome (List String) :=
  if fatalOnMissingEnv then EnvOutcome.panicked fatalElseMessage
  else
    match GetAsString fatalOnMissingEnv envm name with
    | EnvOutcome.panicked m => EnvOutcome.panicked m
    | EnvOutcome.exited c => EnvOutcome.exited c
    | EnvOutcome.value valStr =>
      if valStr.length = 0 then EnvOutcome.value alt
      else EnvOutcome.value (valStr.splitOn sep)

/-!
## JSON decoding and encoding (`encoding/json`, external collaborator)

`run` calls `json.Unmarshal` on the schema file and on the response
text, and `json.MarshalIndent` on the decoded response.  The library is
outside this repository; the model below implements the JSON grammar the
way `encoding/json` behaves on the inputs this program can meet:
decoding yields only `vnull/vbool/vnum/vstr/vlist/vmap` (never
`vstrList` — `Unmarshal` into `any` never produces a `[]string`), a
syntax error reports the offending character, on duplicate object keys
the last value wins, and trailing non-space input after the top-level
value is an error.  Numbers are decoded to their integer part
(`float64` fractions are irrelevant to every claim), and `\u` escapes
are not modelled.
-/

def quoteChar : Char := Char.ofNat 34

def backslashChar : Char := Char.ofNat 92

def lbraceChar : Char := Char.ofNat 123

def rbraceChar : Char := Char.ofNat 125

def isJSONSpace (c : Char) : Bool :=
  c = ' ' || c = Char.ofNat 9 || c = Char.ofNat 10 || c = Char.ofNat 13

def skipJSONSpace : List Char → List Char
  | [] => []
  | c :: cs => if isJSONSpace c then skipJSONSpace cs else c :: cs

/-- One escape character after a backslash inside a string literal. -/
def unescapeChar (c : Char) : Option Char :=
  if c = quoteChar then some quoteChar
  else if c = backslashChar then some backslashChar
  else if c = Char.ofNat 47 then some (Char.ofNat 47)
  else if c = 'n' then some (Char.ofNat 10)
  else if c = 't' then some (Char.ofNat 9)
  else if c = 'r' then some (Char.ofNat 13)
  else if c = 'b' then some (Char.ofNat 8)
  else if c = 'f' then some (Char.ofNat 12)
  else none

/-- Body of a string literal, after the opening quote; returns the
decoded string and the input after the closing quote. -/
def parseStringLit : List Char → Except String (String × List Char)
  | [] => Except.error "unexpected end of JSON input"
  | c :: cs =>
    if c = quoteChar then Except.ok ("", cs)
    else if c = backslashChar then
      match cs with
      | [] => Except.error "unexpected end of JSON input"
      | e :: cs2 =>
        match unescapeChar e with
        | some ch =>
          match parseStringLit cs2 with
          | Except.error msg => Except.error msg
          | Except.ok (s, rest) => Except.ok (String.singleton ch ++ s, rest)
        | none => Except.error "invalid character in string escape code"
    else
      match parseStringLit cs with
      | Except.error msg => Except.error msg
      | Except.ok (s, rest) => Except.ok (String.singleton c ++ s, rest)

def takeDigits : List Char → (String × List Char)
  | [] => ("", [])
  | c :: cs =>
    if c.isDigit then
      let r := takeDigits cs
      (String.singleton c ++ r.1, r.2)
    else ("", c :: cs)

/-- A numeric literal: integer part as the value; fraction and exponent
accepted and discarded. -/
def parseNumber (cs : List Char) : Except String (GoVal × List Char) :=
  let (neg, cs1) :=
    match cs with
    | c :: rest => if c = '-' then (true, rest) else (false, cs)
    | [] => (false, cs)
  let (digits, cs2) := takeDigits cs1
  if digits = "" then Except.error "invalid number literal"
  else
    let (cs3) :=
      match cs2 with
      | c :: rest =>
        if c = '.' then (takeDigits rest).2
        else c :: rest
      | [] => []
    let cs4 :=
      match cs3 with
      | c :: rest =>
        if c = 'e' || c = 'E' then
          match rest with
          | d :: rest2 =>
            if d = '-' || d = '+' then (takeDigits rest2).2 else (takeDigits rest).2
          | [] => []
        else c :: rest
      | [] => []
    let n : Int := Int.ofNat (digits.toNat!)
    Except.ok (GoVal.vnum (if neg then -n else n), cs4)

/-- Literal keyword suffix (`rue`, `alse`, `ull`). -/
def parseKeyword (suffix : List Char) (v : GoVal) (cs : List Char) :
    Except String (GoVal × List Char) :=
  if cs.take suffix.length = suffix then Except.ok (v, cs.drop suffix.length)
  else Except.error "invalid keyword literal"

/-- Go map semantics for duplicate JSON object keys: the last value
wins. -/
def mapInsert : List (String × GoVal) → String → GoVal → List (String × GoVal)
  | [], key, v => [(key, v)]
  | (k, w) :: rest, key, v =>
    if k = key then (k, v) :: rest else (k, w) :: mapInsert rest key v

mutual

/-- One JSON value.  The fuel argument bounds nesting depth; callers
pass the input length, which one value can never exceed. -/
def parseValue : Nat → List Char → Except String (GoVal × List Char)
  | _, [] => Except.error "unexpected end of JSON input"
  | 0, _ => Except.error "exceeded max depth"
  | fuel + 1, c :: cs =>
    if c = lbraceChar then parseObjectBody fuel (skipJSONSpace cs)
    else if c = '[' then parseArrayBody fuel (skipJSONSpace cs)
    else if c = quoteChar then
      match parseStringLit cs with
      | Except.error e => Except.error e
      | Except.ok (s, rest) => Except.ok (GoVal.vstr s, rest)
    else if c = 't' then parseKeyword ['r', 'u', 'e'] (GoVal.vbool true) cs
    else if c = 'f' then parseKeyword ['a', 'l', 's', 'e'] (GoVal.vbool false) cs
    else if c = 'n' then parseKeyword ['u', 'l', 'l'] GoVal.vnull cs
    else if c = '-' || c.isDigit then parseNumber (c :: cs)
    else
      Except.error ("invalid character " ++ String.singleton c ++
        " looking for beginning of value")

/-- Object body after the opening brace and whitespace. -/
def parseObjectBody : Nat → List Char → Except String (GoVal × List Char)
  | _, [] => Except.error "unexpected end of JSON input"
  | 0, _ => Except.error "exceeded max depth"
  | fuel + 1, c :: cs =>
    if c = rbraceChar then Except.ok (GoVal.vmap [], cs)
    else parseMembers fuel [] (c :: cs)

/-- Members of an object: key, colon, value, then comma or closing
brace. -/
def parseMembers (fuel : Nat) (acc : List (String × GoVal)) (cs : List Char) :
    Except String (GoVal × List Char) :=
  match fuel, cs with
  | _, [] => Except.error "unexpected end of JSON input"
  | 0, _ => Except.error "exceeded max depth"
  | fuel + 1, c :: cs2 =>
    if c = quoteChar then
      match parseStringLit cs2 with
      | Except.error e => Except.error e
      | Except.ok (key, rest) =>
        match skipJSONSpace rest with
        | ':' :: rest2 =>
          match parseValue fuel (skipJSONSpace rest2) with
          | Except.error e => Except.error e
          | Except.ok (v, rest3) =>
            match skipJSONSpace rest3 with
            | ',' :: rest4 => parseMembers fuel (mapInsert acc key v) (skipJSONSpace rest4)
            | d :: rest4 =>
              if d = rbraceChar then Except.ok (GoVal.vmap (mapInsert acc key v), rest4)
              else
                Except.error ("invalid character " ++ String.singleton d ++
                  " after object key:value pair")
            | [] => Except.error "unexpected end of JSON input"
        | _ =>
          Except.error "invalid character after object key"
    else
      Except.error ("invalid character " ++ String.singleton c ++
        " looking for beginning of object key string")

/-- Array body after the opening bracket and whitespace. -/
def parseArrayBody : Nat → List Char → Except String (GoVal × List Char)
  | _, [] => Except.error "unexpected end of JSON input"
  | 0, _ => Except.error "exceeded max depth"
  | fuel + 1, c :: cs =>
    if c = ']' then Except.ok (GoVal.vlist [], cs)
    else parseElements fuel [] (c :: cs)

/-- Elements of an array: value, then comma or closing bracket. -/
def parseElements (fuel : Nat) (acc : List GoVal) (cs : List Char) :
    Except String (GoVal × List Char) :=
  match fuel, cs with
  | _, [] => Except.error "unexpected end of JSON input"
  | 0, _ => Except.error "exceeded max depth"
  | fuel + 1, cs2 =>
    match parseValue fuel (skipJSONSpace cs2) with
    | Except.error e => Except.error e
    | Except.ok (v, rest) =>
      match skipJSONSpace rest with
      | ',' :: rest2 => parseElements fuel (acc ++ [v]) (skipJSONSpace rest2)
      | d :: rest2 =>
        if d = ']' then Except.ok (GoVal.vlist (acc ++ [v]), rest2)
        else
          Except.error ("invalid character " ++ String.singleton d ++
            " after array element")
      | [] => Except.error "unexpected end of JSON input"

end

/-- `json.Unmarshal` into a Go `any`. -/
def unmarshalAny (s : String) : Except String GoVal :=
  match parseValue (s.length + 1) (skipJSONSpace s.toList) with
  | Except.error e => Except.error e
  | Except.ok (v, rest) =>
    match skipJSONSpace rest with
    | [] => Except.ok v
    | c :: _ =>
      Except.error ("invalid character " ++ String.singleton c ++
        " after top-level value")

/-- `json.Unmarshal` into a `map[string]any`: the top-level value must
be an object. -/
def unmarshalMap (s : String) : Except String (List (String × GoVal)) :=
  match unmarshalAny s with
  | Except.error e => Except.error e
  | Except.ok (GoVal.vmap m) => Except.ok m
  | Except.ok _ => Except.error "json: cannot unmarshal value into Go map"

/-- String quoting for `json.Marshal` output (common escapes only). -/
def jsonQuote (s : String) : String :=
  String.singleton quoteChar ++
    String.join (s.toList.map (fun c =>
      if c = quoteChar then String.singleton backslashChar ++ String.singleton quoteChar
      else if c = backslashChar then String.singleton backslashChar ++ String.singleton backslashChar
      else if c = Char.ofNat 10 then String.singleton backslashChar ++ "n"
      else if c = Char.ofNat 9 then String.singleton backslashChar ++ "t"
      else if c = Char.ofNat 13 then String.singleton backslashChar ++ "r"
      else String.singleton c)) ++
    String.singleton quoteChar

mutual

/-- `json.MarshalIndent(v, "", "  ")` on a decoded value; `indent` is
the indentation of the enclosing line.  (`encoding/json` additionally
sorts map keys; no claim depends on the emitted bytes, so entries are
kept in model order.) -/
def marshalValue : GoVal → String → String
  | GoVal.vnull, _ => "null"
  | GoVal.vbool b, _ => cond b "true" "false"
  | GoVal.vnum x, _ => toString x
  | GoVal.vstr s, _ => jsonQuote s
  | GoVal.vstrList xs, indent =>
    match xs with
    | [] => "[]"
    | _ =>
      "[\n" ++ String.intercalate ",\n"
          (xs.map (fun s => indent ++ "  " ++ jsonQuote s)) ++
        "\n" ++ indent ++ "]"
  | GoVal.vlist xs, indent =>
    match xs with
    | [] => "[]"
    | _ => "[\n" ++ marshalElements xs (indent ++ "  ") ++ "\n" ++ indent ++ "]"
  | GoVal.vmap fields, indent =>
    match fields with
    | [] => String.singleton lbraceChar ++ String.singleton rbraceChar
    | _ =>
      String.singleton lbraceChar ++ "\n" ++
        marshalMembers fields (indent ++ "  ") ++ "\n" ++ indent ++
        String.singleton rbraceChar

def marshalElements : List GoVal → String → String
  | [], _ => ""
  | [x], indent => indent ++ marshalValue x indent
  | x :: rest, indent =>
    indent ++ marshalValue x indent ++ ",\n" ++ marshalElements rest indent

def marshalMembers : List (String × GoVal) → String → String
  | [], _ => ""
  | [(k, v)], indent => indent ++ jsonQuote k ++ ": " ++ marshalValue v indent
  | (k, v) :: rest, indent =>
    indent ++ jsonQuote k ++ ": " ++ marshalValue v indent ++ ",\n" ++
      marshalMembers rest indent

end

/-!
## The response pipeline (`run` in `main.go`)

External effects are made explicit: the file system and standard output
are a `World` threaded through `run`, and the two provider operations
(`genai.NewClient`, `GenerativeModel.GenerateContent`) are supplied as a
`RunEnv`.  `run` returns `(some errorMessage, unchangedWorld)` exactly
where the Go function returns a non-nil error (after which `main` exits
with code 1), and `(none, updatedWorld)` on success.
-/

/-- The `Config` struct of `main.go`. -/
structure Config : Type where
  apiKey : String
  promptFile : String
  model : String
  schemaFile : String
  outputFile : String
  inputFile : String

/-- The `urls` property of `DefaultSchema` (lines 20-24 of `main.go`). -/
def urlsNode : List (String × GoVal) :=
  [("type", GoVal.vstr "array"),
   ("items", GoVal.vmap [("type", GoVal.vstr "string")]),
   ("description", GoVal.vstr "Array of job URLs extracted from the content")]

/-- `DefaultSchema` (lines 17-27 of `main.go`).  Note the `required`
value is a Go `[]string` literal, not a `[]any`. -/
def DefaultSchema : List (String × GoVal) :=
  [("type", GoVal.vstr "object"),
   ("properties", GoVal.vmap [("urls", GoVal.vmap urlsNode)]),
   ("required", GoVal.vstrList ["urls"])]

/-- One part of a candidate's content: `genai.Text` or any other part
type (ignored by the extraction loop). -/
inductive RespPart : Type where
  | text (s : String) : RespPart
  | nonText : RespPart

/-- One response candidate (its content's parts). -/
structure Candidate : Type where
  parts : List RespPart

/-- A `GenerateContent` response. -/
structure GenResponse : Type where
  candidates : List Candidate

/-- The provider-side configuration `run` puts on the model value before
calling it: model name, `ResponseMIMEType`, `ResponseSchema`. -/
structure ModelConfig : Type where
  name : String
  responseMIMEType : String
  responseSchema : GenaiSchema

/-- The two remote operations, as an explicit collaborator. -/
structure RunEnv : Type where
  newClient : Except String Unit
  generate : ModelConfig → String → Except String GenResponse

/-- Files on disk and lines printed so far. -/
structure World : Type where
  fs : List (String × String)
  stdoutLines : List String

/-- `os.ReadFile`: the content, or `none` when the file is missing. -/
def readFile : List (String × String) → String → Option String
  | [], _ => none
  | (p, c) :: rest, path => if p = path then some c else readFile rest path

/-- `os.WriteFile`: create or overwrite. -/
def writeFile : List (String × String) → String → String → List (String × String)
  | [], path, content => [(path, content)]
  | (p, c) :: rest, path, content =>
    if p = path then (p, content) :: rest
    else (p, c) :: writeFile rest path content

/-- Lines 101-113 of `main.go`: schema selection.  A `-schema` flag
reads and decodes the file; otherwise the built-in `DefaultSchema` is
used.  There is no schema-less branch. -/
def loadSchema (config : Config) (w : World) : Except String (List (String × GoVal)) :=
  if config.schemaFile ≠ "" then
    match readFile w.fs config.schemaFile with
    | none =>
      Except.error ("failed to read schema file: open " ++ config.schemaFile ++
        ": no such file or directory")
    | some schemaContent =>
      match unmarshalMap schemaContent with
      | Except.error e => Except.error ("failed to parse schema file: " ++ e)
      | Except.ok schema => Except.ok schema
  else Except.ok DefaultSchema

/-- Lines 124-135 of `main.go`: the model value is always given
`ResponseMIMEType = "application/json"` and the translated schema. -/
def buildModelConfig (config : Config) (w : World) : Except String ModelConfig :=
  match loadSchema config w with
  | Except.error e => Except.error e
  | Except.ok schema =>
    match convertJSONSchemaToGenaiSchema schema with
    | Except.error e => Except.error ("failed to convert schema: " ++ e)
    | Except.ok genaiSchema =>
      Except.ok (ModelConfig.mk config.model "application/json" genaiSchema)

/-- Lines 151-156 of `main.go`: concatenate the text-bearing parts of a
candidate's content, in order; other parts are skipped. -/
def extractResponseText (parts : List RespPart) : String :=
  parts.foldl
    (fun acc part =>
      match part with
      | RespPart.text txt => acc ++ txt
      | RespPart.nonText => acc) ""

/-- Lines 88-180 of `main.go`: `run`.  The schema is loaded before the
client is created (preserving the source's error order); since
`loadSchema` is pure, re-computing it inside `buildModelConfig` is the
same value. -/
def run (config : Config) (env : RunEnv) (w : World) : Option String × World :=
  match readFile w.fs config.promptFile with
  | none =>
    (some ("failed to read prompt file: open " ++ config.promptFile ++
      ": no such file or directory"), w)
  | some promptContent =>
  match readFile w.fs config.inputFile with
  | none =>
    (some ("failed to read input file: open " ++ config.inputFile ++
      ": no such file or directory"), w)
  | some inputContent =>
  match loadSchema config w with
  | Except.error e => (some e, w)
  | Except.ok _schema =>
  match env.newClient with
  | Except.error e => (some ("failed to create Gemini client: " ++ e), w)
  | Except.ok _ =>
  match buildModelConfig config w with
  | Except.error e => (some e, w)
  | Except.ok mc =>
  let fullPrompt := promptContent ++ "\n\nInput:\n" ++ inputContent
  match env.generate mc fullPrompt with
  | Except.error e => (some ("failed to generate content: " ++ e), w)
  | Except.ok resp =>
  match resp.candidates with
  | [] => (some "no response candidates received", w)
  | cand :: _ =>
  let responseText := extractResponseText cand.parts
  match unmarshalAny responseText with
  | Except.error e => (some ("failed to parse response as JSON: " ++ e), w)
  | Except.ok jsonResponse =>
  let formattedJSON := marshalValue jsonResponse ""
  if config.outputFile ≠ "" then
    (none, World.mk (writeFile w.fs config.outputFile formattedJSON) w.stdoutLines)
  else
    (none, World.mk w.fs (w.stdoutLines ++ [formattedJSON]))

/-!
## Claims about the schema translator
-/

/-- A schema node with a mixed-type `required` sequence. -/
def mixedList : List GoVal := [GoVal.vstr "a", GoVal.vnum 2, GoVal.vstr "b"]

def mixedRequiredSchema : List (String × GoVal) :=
  [("type", GoVal.vstr "object"),
   ("required", GoVal.vlist mixedList),
   ("enum", GoVal.vlist mixedList)]

def mixedRequiredResult : GenaiSchema :=
  GenaiSchema.mk GenaiType.object "" none none ["a", "", "b"] ["a", "", "b"] ""

/-- Keeps only the string payload of an element, `""` otherwise — the
effect of the `make`-then-assign loop on one element. -/
def stringOrEmpty (v : GoVal) : String :=
  match v with
  | GoVal.vstr t => t
  | _ => ""

/-- C1: the claim says the translated `required`/`enum` list contains
exactly the string elements of the input (`["a", 2, "b"]` yielding
`["a", "b"]`).  False: the code allocates a slice of the input's length
and leaves `""` at non-string indices, so the result is
`["a", "", "b"]`. -/
theorem c1_counterexample :
    convertJSONSchemaToGenaiSchema mixedRequiredSchema =
      Except.ok mixedRequiredResult ∧
    mixedRequiredResult.required = ["a", "", "b"] ∧
    mixedRequiredResult.enum = ["a", "", "b"] ∧
    (["a", "", "b"] : List String) ≠ ["a", "b"] := by
  refine ⟨?_, rfl, rfl, by decide⟩
  simp [convertJSONSchemaToGenaiSchema, convertTypeField, convertPropertiesField,
    convertItemsField, lookupKey, getDescriptionField, getRequiredField,
    getEnumField, getFormatField, mixedRequiredSchema, mixedList, mixedRequiredResult]
  rfl

/-- C1 (amended): for an input whose `required` (or `enum`) field is a
`[]any` sequence, a successful translation produces a list of the same
length in which string elements keep their original positions and every
non-string element becomes the empty string. -/
theorem c1_amended (m : List (String × GoVal)) (s : GenaiSchema) (xs : List GoVal)
    (hok : convertJSONSchemaToGenaiSchema m = Except.ok s) :
    (lookupKey m "required" = some (GoVal.vlist xs) →
      s.required = xs.map stringOrEmpty) ∧
    (lookupKey m "enum" = some (GoVal.vlist xs) →
      s.enum = xs.map stringOrEmpty) := by
  obtain ⟨t, ps, its, ht, hps, hits, rfl⟩ := convert_ok_shape hok
  refine ⟨fun hr => ?_, fun he => ?_⟩
  · simp [GenaiSchema.required, getRequiredField, hr, stringOrEmpty]
  · simp [GenaiSchema.enum, getEnumField, he, stringOrEmpty]

/-- Witness for `c1_amended` at the mixed-type input. -/
theorem c1_amended_witness :
    (lookupKey mixedRequiredSchema "required" = some (GoVal.vlist mixedList) →
      mixedRequiredResult.required = mixedList.map stringOrEmpty) ∧
    (lookupKey mixedRequiredSchema "enum" = some (GoVal.vlist mixedList) →
      mixedRequiredResult.enum = mixedList.map stringOrEmpty) :=
  c1_amended mixedRequiredSchema mixedRequiredResult mixedList
    (by
      simp [convertJSONSchemaToGenaiSchema, convertTypeField, convertPropertiesField,
        convertItemsField, lookupKey, getDescriptionField, getRequiredField,
        getEnumField, getFormatField, mixedRequiredSchema, mixedList, mixedRequiredResult]
      rfl)

/-- The `genai.Schema` a fresh node converts to when every field is
absent: all Go zero values. -/
def emptyGenaiSchema : GenaiSchema :=
  GenaiSchema.mk GenaiType.unspecified "" none none [] [] ""

/-- C2: the claim says a missing (or non-string) `type` field makes the
translation fail.  False: the `if ... ok` guard just skips the switch,
the conversion succeeds and the node keeps the zero kind
`TypeUnspecified`. -/
theorem c2_counterexample :
    lookupKey [] "type" = none ∧
    convertJSONSchemaToGenaiSchema [] = Except.ok emptyGenaiSchema ∧
    emptyGenaiSchema.type = GenaiType.unspecified := by
  refine ⟨rfl, ?_, rfl⟩
  simp [convertJSONSchemaToGenaiSchema, convertTypeField, convertPropertiesField,
    convertItemsField, lookupKey, getDescriptionField, getRequiredField,
    getEnumField, getFormatField, emptyGenaiSchema]
  rfl

/-- C2 (amended): only a `type` field that is present, string-typed and
not one of the six supported names makes translation fail (with an error
naming it); when the field is absent or not a string the conversion does
not fail on it and the kind is left `unspecified`. -/
theorem c2_amended :
    (∀ (m : List (String × GoVal)) (t : String),
      lookupKey m "type" = some (GoVal.vstr t) → t ∉ supportedTypeNames →
      convertJSONSchemaToGenaiSchema m = Except.error ("unsupported type: " ++ t)) ∧
    (∀ (m : List (String × GoVal)) (s : GenaiSchema),
      (∀ u, lookupKey m "type" ≠ some (GoVal.vstr u)) →
      convertJSONSchemaToGenaiSchema m = Except.ok s →
      s.type = GenaiType.unspecified) := by
  constructor
  · intro m t hl hnot
    simp [supportedTypeNames] at hnot
    obtain ⟨h1, h2, h3, h4, h5, h6⟩ := hnot
    apply convert_error_of_type
    simp [convertTypeField, hl, h1, h2, h3, h4, h5, h6]
  · intro m s habs hok
    obtain ⟨t, ps, its, ht, hps, hits, rfl⟩ := convert_ok_shape hok
    have : convertTypeField m = Except.ok GenaiType.unspecified := by
      unfold convertTypeField
      cases hl : lookupKey m "type" with
      | none => rfl
      | some v =>
        cases v with
        | vstr u => exact absurd hl (habs u)
        | vnull => rfl
        | vbool b => rfl
        | vnum x => rfl
        | vlist xs => rfl
        | vstrList xs => rfl
        | vmap f => rfl
    rw [ht] at this
    cases this
    rfl

/-- Witness for `c2_amended`: an unsupported type string fails naming
it; a node without `type` converts to the unspecified kind. -/
theorem c2_amended_witness :
    convertJSONSchemaToGenaiSchema [("type", GoVal.vstr "weird")] =
      Except.error ("unsupported type: " ++ "weird") ∧
    emptyGenaiSchema.type = GenaiType.unspecified :=
  ⟨c2_amended.1 [("type", GoVal.vstr "weird")] "weird" (by simp [lookupKey])
      (by decide),
   c2_amended.2 [] emptyGenaiSchema (by intro u; simp [lookupKey])
      (by
        simp [convertJSONSchemaToGenaiSchema, convertTypeField, convertPropertiesField,
          convertItemsField, lookupKey, getDescriptionField, getRequiredField,
          getEnumField, getFormatField, emptyGenaiSchema]
        rfl)⟩

/-- Reduction of the `properties` step when the field holds a mapping. -/
theorem convertPropertiesField_vmap {m pm : List (String × GoVal)}
    (hl : lookupKey m "properties" = some (GoVal.vmap pm)) :
    convertPropertiesField m =
      match convertProperties pm with
      | Except.error e => Except.error e
      | Except.ok converted => Except.ok (some converted) := by
  rw [convertPropertiesField, hl]

/-- Reduction of the `properties` step when the field is absent or not a
mapping: the type assertion fails and the field stays nil. -/
theorem convertPropertiesField_skip {m : List (String × GoVal)}
    (h : ∀ pm, lookupKey m "properties" ≠ some (GoVal.vmap pm)) :
    convertPropertiesField m = Except.ok none := by
  cases hl : lookupKey m "properties" with
  | none => rw [convertPropertiesField, hl]
  | some v =>
    cases v with
    | vmap pm => exact absurd hl (h pm)
    | vnull => rw [convertPropertiesField, hl]
    | vbool b => rw [convertPropertiesField, hl]
    | vnum x => rw [convertPropertiesField, hl]
    | vstr u => rw [convertPropertiesField, hl]
    | vlist xs => rw [convertPropertiesField, hl]
    | vstrList xs => rw [convertPropertiesField, hl]

/-- Reduction of the `items` step when the field holds a mapping. -/
theorem convertItemsField_vmap {m im : List (String × GoVal)}
    (hl : lookupKey m "items" = some (GoVal.vmap im)) :
    convertItemsField m =
      match convertJSONSchemaToGenaiSchema im with
      | Except.error e => Except.error ("failed to convert items schema: " ++ e)
      | Except.ok itemSchema => Except.ok (some itemSchema) := by
  rw [convertItemsField, hl]

/-- Reduction of the `items` step when the field is absent or not a
mapping. -/
theorem convertItemsField_skip {m : List (String × GoVal)}
    (h : ∀ im, lookupKey m "items" ≠ some (GoVal.vmap im)) :
    convertItemsField m = Except.ok none := by
  cases hl : lookupKey m "items" with
  | none => rw [convertItemsField, hl]
  | some v =>
    cases v with
    | vmap im => exact absurd hl (h im)
    | vnull => rw [convertItemsField, hl]
    | vbool b => rw [convertItemsField, hl]
    | vnum x => rw [convertItemsField, hl]
    | vstr u => rw [convertItemsField, hl]
    | vlist xs => rw [convertItemsField, hl]
    | vstrList xs => rw [convertItemsField, hl]

/-- A node whose declared kind is `string` but which carries a
`properties` mapping. -/
def strWithPropsSchema : List (String × GoVal) :=
  [("type", GoVal.vstr "string"),
   ("properties", GoVal.vmap [("x", GoVal.vmap [("type", GoVal.vstr "string")])])]

def strWithPropsResult : GenaiSchema :=
  GenaiSchema.mk GenaiType.string ""
    (some [("x", GenaiSchema.mk GenaiType.string "" none none [] [] "")])
    none [] [] ""

/-- C3: the claim says `properties` is populated only for `object` nodes
(and `items` only for `array` nodes).  False: the code fills them
whenever the field holds a mapping, with no look at the kind: a node of
kind `string` gets populated `properties`. -/
theorem c3_counterexample :
    convertJSONSchemaToGenaiSchema strWithPropsSchema =
      Except.ok strWithPropsResult ∧
    strWithPropsResult.type = GenaiType.string ∧
    strWithPropsResult.type ≠ GenaiType.object ∧
    strWithPropsResult.properties ≠ none := by
  refine ⟨?_, rfl, by decide, by simp [strWithPropsResult, GenaiSchema.properties]⟩
  simp [convertJSONSchemaToGenaiSchema, convertTypeField, convertPropertiesField,
    convertItemsField, convertProperties, lookupKey, getDescriptionField,
    getRequiredField, getEnumField, getFormatField, strWithPropsSchema,
    strWithPropsResult]
  rfl

/-- C3 (amended): on a successful translation, `properties` (resp.
`items`) is populated exactly when the corresponding input field holds a
mapping — independent of the node's kind; and any string `type` field in
the input of a successfully translated node is one of the six supported
names (an unsupported one is a translation error, never a silent
default). -/
theorem c3_amended (m : List (String × GoVal)) (s : GenaiSchema)
    (hok : convertJSONSchemaToGenaiSchema m = Except.ok s) :
    ((s.properties ≠ none) ↔ ∃ pm, lookupKey m "properties" = some (GoVal.vmap pm)) ∧
    ((s.items ≠ none) ↔ ∃ im, lookupKey m "items" = some (GoVal.vmap im)) ∧
    (∀ t, lookupKey m "type" = some (GoVal.vstr t) → t ∈ supportedTypeNames) := by
  obtain ⟨t, ps, its, ht, hps, hits, rfl⟩ := convert_ok_shape hok
  refine ⟨?_, ?_, ?_⟩
  · simp only [GenaiSchema.properties]
    constructor
    · intro hne
      by_contra hno
      push_neg at hno
      rw [convertPropertiesField_skip hno] at hps
      cases hps
      exact hne rfl
    · rintro ⟨pm, hl⟩
      rw [convertPropertiesField_vmap hl] at hps
      cases hcp : convertProperties pm with
      | error e => rw [hcp] at hps; cases hps
      | ok converted => rw [hcp] at hps; cases hps; simp
  · simp only [GenaiSchema.items]
    constructor
    · intro hne
      by_contra hno
      push_neg at hno
      rw [convertItemsField_skip hno] at hits
      cases hits
      exact hne rfl
    · rintro ⟨im, hl⟩
      rw [convertItemsField_vmap hl] at hits
      cases hci : convertJSONSchemaToGenaiSchema im with
      | error e => rw [hci] at hits; cases hits
      | ok itemSchema => rw [hci] at hits; cases hits; simp
  · intro u hlu
    by_contra hnot
    simp [supportedTypeNames] at hnot
    obtain ⟨h1, h2, h3, h4, h5, h6⟩ := hnot
    rw [convertTypeField, hlu] at ht
    simp [h1, h2, h3, h4, h5, h6] at ht

/-- Witness for `c3_amended` at the kind-`string`-with-`properties`
input. -/
theorem c3_amended_witness :
    ((strWithPropsResult.properties ≠ none) ↔
      ∃ pm, lookupKey strWithPropsSchema "properties" = some (GoVal.vmap pm)) ∧
    ((strWithPropsResult.items ≠ none) ↔
      ∃ im, lookupKey strWithPropsSchema "items" = some (GoVal.vmap im)) ∧
    (∀ t, lookupKey strWithPropsSchema "type" = some (GoVal.vstr t) →
      t ∈ supportedTypeNames) :=
  c3_amended strWithPropsSchema strWithPropsResult
    (by
      simp [convertJSONSchemaToGenaiSchema, convertTypeField, convertPropertiesField,
        convertItemsField, convertProperties, lookupKey, getDescriptionField,
        getRequiredField, getEnumField, getFormatField, strWithPropsSchema,
        strWithPropsResult]
      rfl)

/-- Inside the `properties` loop, some key whose value is a mapping that
fails to convert makes the whole loop fail, with the first such key (in
iteration order) named in the error. -/
theorem convertProperties_error_of_mem {pm : List (String × GoVal)} {k : String}
    {v : List (String × GoVal)} {e : String}
    (hmem : (k, GoVal.vmap v) ∈ pm)
    (herr : convertJSONSchemaToGenaiSchema v = Except.error e) :
    ∃ k0 v0 e0, (k0, GoVal.vmap v0) ∈ pm ∧
      convertJSONSchemaToGenaiSchema v0 = Except.error e0 ∧
      convertProperties pm =
        Except.error ("failed to convert property " ++ k0 ++ ": " ++ e0) := by
  induction pm with
  | nil => cases hmem
  | cons p rest ih =>
    obtain ⟨key, prop⟩ := p
    cases prop with
    | vmap propMap =>
      cases hc : convertJSONSchemaToGenaiSchema propMap with
      | error e1 =>
        exact ⟨key, propMap, e1, List.Mem.head rest, hc,
          by simp [convertProperties, hc]⟩
      | ok propSchema =>
        cases hmem with
        | head =>
          rw [hc] at herr
          cases herr
        | tail _ hmem2 =>
          obtain ⟨k0, v0, e0, hmem0, herr0, hcp⟩ := ih hmem2
          exact ⟨k0, v0, e0, List.Mem.tail _ hmem0, herr0,
            by simp [convertProperties, hc, hcp]⟩
    | vnull =>
      cases hmem with
      | tail _ hmem2 =>
        obtain ⟨k0, v0, e0, hmem0, herr0, hcp⟩ := ih hmem2
        exact ⟨k0, v0, e0, List.Mem.tail _ hmem0, herr0,
          by simp [convertProperties, hcp]⟩
    | vbool b =>
      cases hmem with
      | tail _ hmem2 =>
        obtain ⟨k0, v0, e0, hmem0, herr0, hcp⟩ := ih hmem2
        exact ⟨k0, v0, e0, List.Mem.tail _ hmem0, herr0,
          by simp [convertProperties, hcp]⟩
    | vnum x =>
      cases hmem with
      | tail _ hmem2 =>
        obtain ⟨k0, v0, e0, hmem0, herr0, hcp⟩ := ih hmem2
        exact ⟨k0, v0, e0, List.Mem.tail _ hmem0, herr0,
          by simp [convertProperties, hcp]⟩
    | vstr u =>
      cases hmem with
      | tail _ hmem2 =>
        obtain ⟨k0, v0, e0, hmem0, herr0, hcp⟩ := ih hmem2
        exact ⟨k0, v0, e0, List.Mem.tail _ hmem0, herr0,
          by simp [convertProperties, hcp]⟩
    | vlist xs =>
      cases hmem with
      | tail _ hmem2 =>
        obtain ⟨k0, v0, e0, hmem0, herr0, hcp⟩ := ih hmem2
        exact ⟨k0, v0, e0, List.Mem.tail _ hmem0, herr0,
          by simp [convertProperties, hcp]⟩
    | vstrList xs =>
      cases hmem with
      | tail _ hmem2 =>
        obtain ⟨k0, v0, e0, hmem0, herr0, hcp⟩ := ih hmem2
        exact ⟨k0, v0, e0, List.Mem.tail _ hmem0, herr0,
          by simp [convertProperties, hcp]⟩

/-- C6: in an object node, every value under `properties` is translated
recursively; if any key's mapping value fails to translate, the whole
call fails (no partial tree), and — provided the node's own `type` step
did not already fail — the reported error wraps the offending key's
name. -/
theorem c6_theorem (m pm : List (String × GoVal)) (k : String)
    (v : List (String × GoVal)) (e : String)
    (hl : lookupKey m "properties" = some (GoVal.vmap pm))
    (hmem : (k, GoVal.vmap v) ∈ pm)
    (herr : convertJSONSchemaToGenaiSchema v = Except.error e) :
    (∀ s, convertJSONSchemaToGenaiSchema m ≠ Except.ok s) ∧
    (∀ t, convertTypeField m = Except.ok t →
      ∃ k0 v0 e0, (k0, GoVal.vmap v0) ∈ pm ∧
        convertJSONSchemaToGenaiSchema v0 = Except.error e0 ∧
        convertJSONSchemaToGenaiSchema m =
          Except.error ("failed to convert property " ++ k0 ++ ": " ++ e0)) := by
  obtain ⟨k0, v0, e0, hmem0, herr0, hcp⟩ := convertProperties_error_of_mem hmem herr
  have hpf : convertPropertiesField m =
      Except.error ("failed to convert property " ++ k0 ++ ": " ++ e0) := by
    rw [convertPropertiesField_vmap hl, hcp]
  constructor
  · intro s hok
    obtain ⟨t, ps, its, ht, hps, hits, _⟩ := convert_ok_shape hok
    rw [hpf] at hps
    cases hps
  · intro t ht
    exact ⟨k0, v0, e0, hmem0, herr0, convert_error_of_props ht hpf⟩

/-- An object node with one well-formed property and one whose nested
`type` is unsupported. -/
def badPropInner : List (String × GoVal) := [("type", GoVal.vstr "weird")]

def badPropList : List (String × GoVal) :=
  [("good", GoVal.vmap [("type", GoVal.vstr "string")]),
   ("bad", GoVal.vmap badPropInner)]

def badPropSchema : List (String × GoVal) :=
  [("type", GoVal.vstr "object"),
   ("properties", GoVal.vmap badPropList)]

/-- Witness for `c6_theorem` at a concrete two-property object whose
second property has an unsupported nested type. -/
theorem c6_theorem_witness :
    (∀ s, convertJSONSchemaToGenaiSchema badPropSchema ≠ Except.ok s) ∧
    (∀ t, convertTypeField badPropSchema = Except.ok t →
      ∃ k0 v0 e0, (k0, GoVal.vmap v0) ∈ badPropList ∧
        convertJSONSchemaToGenaiSchema v0 = Except.error e0 ∧
        convertJSONSchemaToGenaiSchema badPropSchema =
          Except.error ("failed to convert property " ++ k0 ++ ": " ++ e0)) :=
  c6_theorem badPropSchema badPropList "bad" badPropInner
    ("unsupported type: " ++ "weird")
    (by simp [badPropSchema, badPropList, lookupKey])
    (List.Mem.tail _ (List.Mem.head []))
    (convert_error_of_type (by simp [convertTypeField, lookupKey, badPropInner]))

/-- C9: a key under `properties` whose value is not a mapping is skipped
silently: the translation result is identical to the one for the same
node with that entry removed — it is never reported as an error and
never appears in the output properties. -/
theorem c9_theorem (pre post : List (String × GoVal)) (k : String) (v : GoVal)
    (hv : ∀ mm, v ≠ GoVal.vmap mm) :
    convertProperties (pre ++ (k, v) :: post) = convertProperties (pre ++ post) := by
  induction pre with
  | nil =>
    simp only [List.nil_append]
    cases v with
    | vmap mm => exact absurd rfl (hv mm)
    | vnull => simp [convertProperties]
    | vbool b => simp [convertProperties]
    | vnum x => simp [convertProperties]
    | vstr u => simp [convertProperties]
    | vlist xs => simp [convertProperties]
    | vstrList xs => simp [convertProperties]
  | cons p pre2 ih =>
    obtain ⟨key, prop⟩ := p
    cases prop with
    | vmap propMap => simp [convertProperties, ih]
    | vnull => simp [convertProperties, ih]
    | vbool b => simp [convertProperties, ih]
    | vnum x => simp [convertProperties, ih]
    | vstr u => simp [convertProperties, ih]
    | vlist xs => simp [convertProperties, ih]
    | vstrList xs => simp [convertProperties, ih]

/-- Witness for `c9_theorem`: a non-mapping property value between two
well-formed ones changes nothing. -/
theorem c9_theorem_witness :
    convertProperties
      ([("x", GoVal.vmap [("type", GoVal.vstr "string")])] ++
        ("bad", GoVal.vstr "oops") ::
          [("y", GoVal.vmap [("type", GoVal.vstr "integer")])]) =
      convertProperties
        ([("x", GoVal.vmap [("type", GoVal.vstr "string")])] ++
          [("y", GoVal.vmap [("type", GoVal.vstr "integer")])]) :=
  c9_theorem [("x", GoVal.vmap [("type", GoVal.vstr "string")])]
    [("y", GoVal.vmap [("type", GoVal.vstr "integer")])]
    "bad" (GoVal.vstr "oops")
    (fun mm h => GoVal.noConfusion h)

/-- What the inner `\x7b"type": "string"\x7d` items node converts to. -/
theorem conv_stringNode :
    convertJSONSchemaToGenaiSchema [("type", GoVal.vstr "string")] =
      Except.ok (GenaiSchema.mk GenaiType.string "" none none [] [] "") := by
  simp [convertJSONSchemaToGenaiSchema, convertTypeField, convertPropertiesField,
    convertItemsField, lookupKey, getDescriptionField, getRequiredField,
    getEnumField, getFormatField]
  rfl

/-- What the `urls` node of `DefaultSchema` converts to. -/
def urlsGenai : GenaiSchema :=
  GenaiSchema.mk GenaiType.array
    "Array of job URLs extracted from the content"
    none
    (some (GenaiSchema.mk GenaiType.string "" none none [] [] ""))
    [] [] ""

theorem conv_urlsNode :
    convertJSONSchemaToGenaiSchema urlsNode = Except.ok urlsGenai := by
  have h1 : convertTypeField urlsNode = Except.ok GenaiType.array := by
    simp [convertTypeField, lookupKey, urlsNode]
  have h2 : convertPropertiesField urlsNode = Except.ok none :=
    convertPropertiesField_skip (by intro pm; simp [lookupKey, urlsNode])
  have h3 : convertItemsField urlsNode =
      Except.ok (some (GenaiSchema.mk GenaiType.string "" none none [] [] "")) := by
    rw [convertItemsField_vmap (by simp [lookupKey, urlsNode] : lookupKey urlsNode "items" = some (GoVal.vmap [("type", GoVal.vstr "string")])), conv_stringNode]
  rw [convertJSONSchemaToGenaiSchema, h1, h2, h3]
  simp [Bind.bind, Except.bind, getDescriptionField, getRequiredField,
    getEnumField, getFormatField, lookupKey, urlsNode, urlsGenai]

/-- The value `convertJSONSchemaToGenaiSchema` produces for
`DefaultSchema`: note `required` is empty. -/
def defaultGenaiSchema : GenaiSchema :=
  GenaiSchema.mk GenaiType.object "" (some [("urls", urlsGenai)]) none [] [] ""

theorem conv_DefaultSchema :
    convertJSONSchemaToGenaiSchema DefaultSchema = Except.ok defaultGenaiSchema := by
  have h1 : convertTypeField DefaultSchema = Except.ok GenaiType.object := by
    simp [convertTypeField, lookupKey, DefaultSchema]
  have h2 : convertPropertiesField DefaultSchema =
      Except.ok (some [("urls", urlsGenai)]) := by
    rw [convertPropertiesField_vmap (by simp [lookupKey, DefaultSchema] : lookupKey DefaultSchema "properties" = some (GoVal.vmap [("urls", GoVal.vmap urlsNode)]))]
    simp [convertProperties, conv_urlsNode]
  have h3 : convertItemsField DefaultSchema = Except.ok none :=
    convertItemsField_skip (by intro im; simp [lookupKey, DefaultSchema])
  rw [convertJSONSchemaToGenaiSchema, h1, h2, h3]
  simp [Bind.bind, Except.bind, getDescriptionField, getRequiredField,
    getEnumField, getFormatField, lookupKey, DefaultSchema, defaultGenaiSchema]

/-- C8: with no `-schema` flag, `run` uses the built-in `DefaultSchema`,
whose `required` entry is a Go `[]string`; the `.([]any)` type assertion
in the translator fails on it, so the translated schema has an empty
`Required` list — the default schema's required constraint is silently
dropped. -/
theorem c8_theorem :
    (∀ (config : Config) (w : World), config.schemaFile = "" →
      loadSchema config w = Except.ok DefaultSchema) ∧
    lookupKey DefaultSchema "required" = some (GoVal.vstrList ["urls"]) ∧
    convertJSONSchemaToGenaiSchema DefaultSchema = Except.ok defaultGenaiSchema ∧
    defaultGenaiSchema.required = [] := by
  exact ⟨fun config w h => by simp [loadSchema, h],
    by simp [DefaultSchema, lookupKey], conv_DefaultSchema, rfl⟩

/-- Witness for `c8_theorem`'s quantified conjunct at a concrete
schema-less configuration. -/
theorem c8_theorem_witness :
    loadSchema (Config.mk "key" "p.txt" "gemini-1.5-flash" "" "" "i.txt")
      (World.mk [] []) = Except.ok DefaultSchema :=
  c8_theorem.1 (Config.mk "key" "p.txt" "gemini-1.5-flash" "" "" "i.txt")
    (World.mk [] []) rfl

/-- C10: whenever `FatalOnMissingEnv` is set, every `GetAs*Else` helper
panics up front with the fixed message — before consulting the
environment, so the panic happens whether or not the variable is
present. -/
theorem c10_theorem (envm : EnvMap) (key alt sep : String) (altInt : Int)
    (altBool : Bool) (altSlice : List String) :
    GetAsStringElse true envm key alt = EnvOutcome.panicked fatalElseMessage ∧
    GetAsIntElse true envm key altInt = EnvOutcome.panicked fatalElseMessage ∧
    GetAsBoolElse true envm key altBool = EnvOutcome.panicked fatalElseMessage ∧
    GetAsSliceElse true envm key sep altSlice = EnvOutcome.panicked fatalElseMessage :=
  ⟨rfl, rfl, rfl, rfl⟩

/-!
## Claims about the response pipeline
-/

/-- A configuration with no `-schema` and no `-output` flag. -/
def stdConfig : Config :=
  Config.mk "key" "prompt.txt" "gemini-1.5-flash" "" "" "input.txt"

/-- A world holding the two input files. -/
def stdWorld : World :=
  World.mk [("prompt.txt", "Summarize."), ("input.txt", "hello")] []

/-- A provider stub answering every request with a single candidate
carrying one text part. -/
def envWithText (t : String) : RunEnv :=
  RunEnv.mk (Except.ok ())
    (fun _ _ => Except.ok (GenResponse.mk [Candidate.mk [RespPart.text t]]))

/-- A provider stub answering every request with zero candidates. -/
def zeroCandidatesEnv : RunEnv :=
  RunEnv.mk (Except.ok ()) (fun _ _ => Except.ok (GenResponse.mk []))

/-- C5: under a provider whose successful responses all carry zero
candidates, every run fails (`main` then exits non-zero) and returns the
world unchanged — no output file is created or modified, because output
is written only after the whole pipeline has succeeded. -/
theorem c5_theorem (config : Config) (env : RunEnv) (w : World)
    (hzero : ∀ mc p resp, env.generate mc p = Except.ok resp →
      resp.candidates = []) :
    (run config env w).1 ≠ none ∧ (run config env w).2 = w := by
  cases hp : readFile w.fs config.promptFile with
  | none => simp [run, hp]
  | some promptContent =>
    cases hi : readFile w.fs config.inputFile with
    | none => simp [run, hp, hi]
    | some inputContent =>
      cases hs : loadSchema config w with
      | error e => simp [run, hp, hi, hs]
      | ok schema =>
        cases hc : env.newClient with
        | error e => simp [run, hp, hi, hs, hc]
        | ok u =>
          cases hb : buildModelConfig config w with
          | error e => simp [run, hp, hi, hs, hc, hb]
          | ok mc =>
            cases hg : env.generate mc (promptContent ++ "\n\nInput:\n" ++ inputContent) with
            | error e => simp [run, hp, hi, hs, hc, hb, hg]
            | ok resp =>
              have hcand := hzero _ _ _ hg
              simp [run, hp, hi, hs, hc, hb, hg, hcand]

/-- Witness for `c5_theorem` at a concrete world where the pipeline
reaches the candidates check. -/
theorem c5_theorem_witness :
    (run stdConfig zeroCandidatesEnv stdWorld).1 ≠ none ∧
    (run stdConfig zeroCandidatesEnv stdWorld).2 = stdWorld :=
  c5_theorem stdConfig zeroCandidatesEnv stdWorld
    (fun mc p resp h => by
      simp [zeroCandidatesEnv] at h
      cases h
      rfl)

/-- Reduction of `buildModelConfig` once the schema is known. -/
theorem buildModelConfig_eq {config : Config} {w : World} {s : List (String × GoVal)}
    (hl : loadSchema config w = Except.ok s) :
    buildModelConfig config w =
      match convertJSONSchemaToGenaiSchema s with
      | Except.error e => Except.error ("failed to convert schema: " ++ e)
      | Except.ok genaiSchema =>
        Except.ok (ModelConfig.mk config.model "application/json" genaiSchema) := by
  rw [buildModelConfig, hl]

/-- A schema-less run that reaches a one-text-part candidate reduces to
the JSON parse of that text: a parse failure is reported, wrapping only
the parser message; a parse success is pretty-printed to stdout. -/
theorem run_parse_shape (config : Config) (env : RunEnv) (w : World)
    (promptContent inputContent t : String)
    (hp : readFile w.fs config.promptFile = some promptContent)
    (hi : readFile w.fs config.inputFile = some inputContent)
    (hs : loadSchema config w = Except.ok DefaultSchema)
    (hc : env.newClient = Except.ok ())
    (hb : buildModelConfig config w =
      Except.ok (ModelConfig.mk config.model "application/json" defaultGenaiSchema))
    (hg : env.generate
        (ModelConfig.mk config.model "application/json" defaultGenaiSchema)
        (promptContent ++ "\n\nInput:\n" ++ inputContent) =
      Except.ok (GenResponse.mk [Candidate.mk [RespPart.text t]]))
    (hout : config.outputFile = "") :
    run config env w =
      (match unmarshalAny t with
       | Except.error e =>
         (some ("failed to parse response as JSON: " ++ e), w)
       | Except.ok v =>
         (none, World.mk w.fs (w.stdoutLines ++ [marshalValue v ""]))) := by
  cases hu : unmarshalAny t with
  | error e => simp [run, hp, hi, hs, hc, hb, hg, hout, extractResponseText, hu]
  | ok v => simp [run, hp, hi, hs, hc, hb, hg, hout, extractResponseText, hu]

/-- `run_parse_shape` instantiated at the standard fixtures. -/
theorem run_std_parse (t : String) :
    run stdConfig (envWithText t) stdWorld =
      (match unmarshalAny t with
       | Except.error e =>
         (some ("failed to parse response as JSON: " ++ e), stdWorld)
       | Except.ok v =>
         (none, World.mk stdWorld.fs (stdWorld.stdoutLines ++ [marshalValue v ""]))) :=
  run_parse_shape stdConfig (envWithText t) stdWorld "Summarize." "hello" t
    rfl rfl rfl rfl
    (by rw [buildModelConfig_eq (rfl : loadSchema stdConfig stdWorld = Except.ok DefaultSchema), conv_DefaultSchema])
    rfl rfl

/-- `json.Unmarshal` rejects `hello world`. -/
theorem parse_helloWorld :
    unmarshalAny "hello world" =
      Except.error "invalid character h looking for beginning of value" := by
  rfl

/-- C4: the claim says a run without a schema operates in a plain mode —
raw text emitted unmodified, no JSON parsing.  False: with no `-schema`
flag the default schema is installed and the response is still parsed as
JSON, so a non-JSON response text makes the run fail instead of being
emitted. -/
theorem c4_counterexample :
    stdConfig.schemaFile = "" ∧
    run stdConfig (envWithText "hello world") stdWorld =
      (some ("failed to parse response as JSON: " ++
        "invalid character h looking for beginning of value"), stdWorld) := by
  refine ⟨rfl, ?_⟩
  rw [run_std_parse, parse_helloWorld]

/-- C4 (amended): there is no schema-less mode.  When no schema file is
supplied the built-in `DefaultSchema` is loaded, the provider model is
still configured with `ResponseMIMEType = "application/json"` and the
translated default schema, and (per `run_std_parse` / the
counterexample) the response text is still JSON-parsed. -/
theorem c4_amended (config : Config) (w : World) (hsf : config.schemaFile = "") :
    loadSchema config w = Except.ok DefaultSchema ∧
    (∀ mc, buildModelConfig config w = Except.ok mc →
      mc.responseMIMEType = "application/json" ∧
      mc.responseSchema = defaultGenaiSchema) := by
  have hl : loadSchema config w = Except.ok DefaultSchema := by simp [loadSchema, hsf]
  refine ⟨hl, fun mc hb => ?_⟩
  rw [buildModelConfig_eq hl, conv_DefaultSchema] at hb
  simp at hb
  cases hb
  exact ⟨rfl, rfl⟩

/-- Witness for `c4_amended` at the standard schema-less
configuration. -/
theorem c4_amended_witness :
    loadSchema stdConfig stdWorld = Except.ok DefaultSchema ∧
    (∀ mc, buildModelConfig stdConfig stdWorld = Except.ok mc →
      mc.responseMIMEType = "application/json" ∧
      mc.responseSchema = defaultGenaiSchema) :=
  c4_amended stdConfig stdWorld rfl

/-- `json.Unmarshal` rejects `ha` and `hb` with the same error. -/
theorem parse_ha :
    unmarshalAny "ha" =
      Except.error "invalid character h looking for beginning of value" := by
  rfl

theorem parse_hb :
    unmarshalAny "hb" =
      Except.error "invalid character h looking for beginning of value" := by
  rfl

/-- C7: the claim says the JSON-parse failure error carries the raw
response text.  False: the error wraps only the parser message
(`fmt.Errorf("failed to parse response as JSON: %w", err)` — the raw
text is not an argument), so two runs with different raw texts `ha` and
`hb` fail with identical error values; an error equal across distinct
raw texts cannot carry the raw text. -/
theorem c7_counterexample :
    run stdConfig (envWithText "ha") stdWorld =
      run stdConfig (envWithText "hb") stdWorld ∧
    ("ha" : String) ≠ "hb" ∧
    (run stdConfig (envWithText "ha") stdWorld).1 =
      some ("failed to parse response as JSON: " ++
        "invalid character h looking for beginning of value") := by
  refine ⟨?_, by decide, ?_⟩
  · rw [run_std_parse, run_std_parse, parse_ha, parse_hb]
  · rw [run_std_parse, parse_ha]

/-- C7 (amended): in schema mode, a response text that fails JSON
parsing makes the run fail with an error that wraps the parser error
message under the fixed tag `failed to parse response as JSON:`; the raw
response text itself is not part of the error. -/
theorem c7_amended (t e : String) (he : unmarshalAny t = Except.error e) :
    run stdConfig (envWithText t) stdWorld =
      (some ("failed to parse response as JSON: " ++ e), stdWorld) := by
  rw [run_std_parse, he]

/-- Witness for `c7_amended` at the raw text `ha`. -/
theorem c7_amended_witness :
    run stdConfig (envWithText "ha") stdWorld =
      (some ("failed to parse response as JSON: " ++
        "invalid character h looking for beginning of value"), stdWorld) :=
  c7_amended "ha" "invalid character h looking for beginning of value" parse_ha
